/-
Verification of the multi-phase batch extraction orchestrator of the
`econ_comm_analysis` repository: a shallow embedding, in Lean 4, of the
pure data-flow logic of

  * `src/argumentation_mining/utils/openai_calls.py`
  * `src/argumentation_mining/pipelines/direct_extraction/direct_extraction.py`
  * `src/argumentation_mining/pipelines/socratic_extraction/socratic_extraction.py`

Remote-service effects (the OpenAI client object, file writes, sleeping)
are modelled by passing the data they would produce — poll-status
sequences, result-record lists, response functions — as explicit
arguments.  Python dicts keyed by strings are modelled as functions
`String → Option α` built by left folds, so that later insertions shadow
earlier ones exactly as dict assignment does.
-/
import Mathlib

/-!
## Decimal rendering of natural numbers

Python renders the article index into a correlation key with an f-string
(`f"c_{i}"`), i.e. with the decimal representation of `i`.  We embed that
rendering as `natStr` below and prove the facts the correlation-key
claims need: the rendering is injective, nonempty, and never contains the
separator character.
-/

/-- Fuelled helper for `decimalDigits`; any fuel above the number itself
is enough. -/
def decimalDigitsAux : Nat → Nat → List Char
  | 0, _ => []
  | fuel + 1, n =>
    if n < 10 then [Nat.digitChar n]
    else decimalDigitsAux fuel (n / 10) ++ [Nat.digitChar (n % 10)]

/-- The decimal digits of `n`, most significant first, as characters
(the rendering `str(i)` performs inside a Python f-string). -/
def decimalDigits (n : Nat) : List Char := decimalDigitsAux (n + 1) n

/-- Decimal string rendering of a natural number. -/
def natStr (n : Nat) : String := ⟨decimalDigits n⟩

/-- Value of a digit-character list read as a decimal numeral. -/
def digitsVal (l : List Char) : Nat :=
  l.foldl (fun acc c => acc * 10 + (c.toNat - 48)) 0

theorem digitChar_toNat {d : Nat} (h : d < 10) :
    (Nat.digitChar d).toNat = 48 + d := by
  interval_cases d <;> rfl

theorem digitsVal_append_singleton (l : List Char) (c : Char) :
    digitsVal (l ++ [c]) = digitsVal l * 10 + (c.toNat - 48) := by
  simp [digitsVal, List.foldl_append]

theorem digitsVal_decimalDigitsAux :
    ∀ (fuel n : Nat), n < fuel → digitsVal (decimalDigitsAux fuel n) = n := by
  intro fuel
  induction fuel with
  | zero => intro n h; omega
  | succ fuel ih =>
    intro n h
    rw [decimalDigitsAux]
    by_cases h10 : n < 10
    · simp only [h10, if_pos]
      simp [digitsVal, digitChar_toNat h10]
    · simp only [h10, if_neg, not_false_iff]
      have hdiv : n / 10 < n := Nat.div_lt_self (by omega) (by omega)
      rw [digitsVal_append_singleton, ih (n / 10) (by omega),
        digitChar_toNat (Nat.mod_lt n (by omega))]
      omega

theorem digitsVal_decimalDigits (n : Nat) :
    digitsVal (decimalDigits n) = n :=
  digitsVal_decimalDigitsAux (n + 1) n (Nat.lt_succ_self n)

theorem decimalDigits_ne_nil (n : Nat) : decimalDigits n ≠ [] := by
  rw [decimalDigits, decimalDigitsAux]
  by_cases h : n < 10 <;> simp [h]

theorem decimalDigitsAux_mem_range :
    ∀ (fuel n : Nat), n < fuel → ∀ c ∈ decimalDigitsAux fuel n,
      48 ≤ c.toNat ∧ c.toNat ≤ 57 := by
  intro fuel
  induction fuel with
  | zero => intro n h; omega
  | succ fuel ih =>
    intro n h c hc
    rw [decimalDigitsAux] at hc
    by_cases h10 : n < 10
    · simp only [h10, if_pos, List.mem_singleton] at hc
      subst hc
      rw [digitChar_toNat h10]
      omega
    · simp only [h10, if_neg, not_false_iff, List.mem_append,
        List.mem_singleton] at hc
      have hdiv : n / 10 < n := Nat.div_lt_self (by omega) (by omega)
      rcases hc with hc | hc
      · exact ih (n / 10) (by omega) c hc
      · subst hc
        rw [digitChar_toNat (Nat.mod_lt n (by omega))]
        omega

theorem decimalDigits_mem_range {n : Nat} {c : Char}
    (hc : c ∈ decimalDigits n) : 48 ≤ c.toNat ∧ c.toNat ≤ 57 :=
  decimalDigitsAux_mem_range (n + 1) n (Nat.lt_succ_self n) c hc

theorem decimalDigits_ne_underscore {n : Nat} {c : Char}
    (hc : c ∈ decimalDigits n) : c ≠ '_' := by
  intro heq
  have := decimalDigits_mem_range hc
  subst heq
  exact absurd this (by decide)

theorem decimalDigits_inj {m n : Nat}
    (h : decimalDigits m = decimalDigits n) : m = n := by
  have hm := digitsVal_decimalDigits m
  have hn := digitsVal_decimalDigits n
  rw [h] at hm
  omega

theorem natStr_inj {m n : Nat} (h : natStr m = natStr n) : m = n := by
  apply decimalDigits_inj
  simpa [natStr, String.ext_iff] using h

theorem natStr_data (n : Nat) : (natStr n).data = decimalDigits n := rfl

/-- Splitting a character list at a separator that occurs in neither
left part is unambiguous. -/
theorem append_sep_inj {l₁ l₂ l₃ l₄ : List Char}
    (h₁ : '_' ∉ l₁) (h₃ : '_' ∉ l₃)
    (h : l₁ ++ '_' :: l₂ = l₃ ++ '_' :: l₄) : l₁ = l₃ ∧ l₂ = l₄ := by
  induction l₁ generalizing l₃ with
  | nil =>
    cases l₃ with
    | nil => simpa using h
    | cons c t =>
      simp only [List.nil_append, List.cons_append] at h
      injection h with h1 h2
      subst h1
      exact absurd (List.mem_cons_self _ _) h₃
  | cons c t ih =>
    cases l₃ with
    | nil =>
      simp only [List.nil_append, List.cons_append] at h
      injection h with h1 h2
      subst h1
      exact absurd (List.mem_cons_self _ _) h₁
    | cons c' t' =>
      simp only [List.cons_append] at h
      injection h with h1 h2
      subst h1
      have := ih (fun hm => h₁ (List.mem_cons_of_mem _ hm))
        (fun hm => h₃ (List.mem_cons_of_mem _ hm)) h2
      exact ⟨by rw [this.1], this.2⟩

/-!
## Correlation keys

Phase 1 tags one request per article with `f"c_{i}"` (direct variant) or
`f"q_{i}"` (question-answer variant); later phases tag one request per
(article, item) pair with `f"p_{i}_{j}"`, `f"qa_{i}_{j}"`, `f"arg_{i}_{j}"`.
`key_article_index` and `key_item_index` read the positional segments
back out of a key: the segment between the first two separators, and the
segment after the second separator.
-/

/-- A digit-character list read back as a number; `none` when the list is
empty or holds a non-digit. -/
def decodeDigits (l : List Char) : Option Nat :=
  if l ≠ [] ∧ ∀ c ∈ l, 48 ≤ c.toNat ∧ c.toNat ≤ 57 then some (digitsVal l)
  else none

/-- The article-index segment of a correlation key: the digits between
the first underscore and the following underscore (or the end). -/
def key_article_index (k : String) : Option Nat :=
  decodeDigits
    (((k.data.dropWhile (fun c => c != '_')).drop 1).takeWhile
      (fun c => c != '_'))

/-- The item-index segment of a correlation key: the digits after the
second underscore; `none` for a single-segment key. -/
def key_item_index (k : String) : Option Nat :=
  let rest := (k.data.dropWhile (fun c => c != '_')).drop 1
  decodeDigits
    (((rest.dropWhile (fun c => c != '_')).drop 1).takeWhile
      (fun c => c != '_'))

theorem takeWhile_append_stop {α} (p : α → Bool) {l₁ : List α} (x : α)
    (l₂ : List α) (h : ∀ c ∈ l₁, p c = true) (hx : p x = false) :
    (l₁ ++ x :: l₂).takeWhile p = l₁ := by
  induction l₁ with
  | nil => simp [List.takeWhile_cons, hx]
  | cons a t ih =>
    simp only [List.cons_append, List.takeWhile_cons,
      h a (List.mem_cons_self a t), if_true]
    rw [ih (fun c hc => h c (List.mem_cons_of_mem a hc))]

theorem dropWhile_append_stop {α} (p : α → Bool) {l₁ : List α} (x : α)
    (l₂ : List α) (h : ∀ c ∈ l₁, p c = true) (hx : p x = false) :
    (l₁ ++ x :: l₂).dropWhile p = x :: l₂ := by
  induction l₁ with
  | nil => simp [List.dropWhile_cons, hx]
  | cons a t ih =>
    simp only [List.cons_append, List.dropWhile_cons,
      h a (List.mem_cons_self a t), if_true]
    exact ih (fun c hc => h c (List.mem_cons_of_mem a hc))

theorem takeWhile_all {α} (p : α → Bool) {l : List α}
    (h : ∀ c ∈ l, p c = true) : l.takeWhile p = l := by
  induction l with
  | nil => rfl
  | cons a t ih =>
    simp only [List.takeWhile_cons, h a (List.mem_cons_self a t), if_true]
    rw [ih (fun c hc => h c (List.mem_cons_of_mem a hc))]

theorem dropWhile_all {α} (p : α → Bool) {l : List α}
    (h : ∀ c ∈ l, p c = true) : l.dropWhile p = [] := by
  induction l with
  | nil => rfl
  | cons a t ih =>
    simp only [List.dropWhile_cons, h a (List.mem_cons_self a t), if_true]
    exact ih (fun c hc => h c (List.mem_cons_of_mem a hc))

theorem decimalDigits_not_underscore (n : Nat) :
    ∀ c ∈ decimalDigits n, (c != '_') = true := fun c hc =>
  bne_iff_ne.mpr (decimalDigits_ne_underscore hc)

theorem decodeDigits_decimalDigits (n : Nat) :
    decodeDigits (decimalDigits n) = some n := by
  rw [decodeDigits, if_pos, digitsVal_decimalDigits]
  exact ⟨decimalDigits_ne_nil n, fun c hc => decimalDigits_mem_range hc⟩

theorem key_article_index_eq (pre : List Char)
    (hpre : ∀ c ∈ pre, (c != '_') = true) (i : Nat) {k : String}
    (hk : k.data = pre ++ '_' :: decimalDigits i) :
    key_article_index k = some i := by
  rw [key_article_index, hk, dropWhile_append_stop _ _ _ hpre (by decide)]
  simp only [List.drop_succ_cons, List.drop_zero]
  rw [takeWhile_all _ (decimalDigits_not_underscore i),
    decodeDigits_decimalDigits]

theorem key_article_index_pair (pre : List Char)
    (hpre : ∀ c ∈ pre, (c != '_') = true) (i j : Nat) {k : String}
    (hk : k.data = pre ++ '_' :: (decimalDigits i ++ '_' :: decimalDigits j)) :
    key_article_index k = some i := by
  rw [key_article_index, hk, dropWhile_append_stop _ _ _ hpre (by decide)]
  simp only [List.drop_succ_cons, List.drop_zero]
  rw [takeWhile_append_stop _ _ _ (decimalDigits_not_underscore i) (by decide),
    decodeDigits_decimalDigits]

theorem key_item_index_single (pre : List Char)
    (hpre : ∀ c ∈ pre, (c != '_') = true) (i : Nat) {k : String}
    (hk : k.data = pre ++ '_' :: decimalDigits i) :
    key_item_index k = none := by
  rw [key_item_index, hk, dropWhile_append_stop _ _ _ hpre (by decide)]
  simp only [List.drop_succ_cons, List.drop_zero]
  rw [dropWhile_all _ (decimalDigits_not_underscore i)]
  simp [decodeDigits]

theorem key_item_index_pair (pre : List Char)
    (hpre : ∀ c ∈ pre, (c != '_') = true) (i j : Nat) {k : String}
    (hk : k.data = pre ++ '_' :: (decimalDigits i ++ '_' :: decimalDigits j)) :
    key_item_index k = some j := by
  rw [key_item_index, hk, dropWhile_append_stop _ _ _ hpre (by decide)]
  simp only [List.drop_succ_cons, List.drop_zero]
  rw [dropWhile_append_stop _ _ _ (decimalDigits_not_underscore i) (by decide)]
  simp only [List.drop_succ_cons, List.drop_zero]
  rw [takeWhile_all _ (decimalDigits_not_underscore j),
    decodeDigits_decimalDigits]

/-!
## Python string primitives

Lean's own `String.trim` / `String.splitOn` are byte-position loops that
the kernel cannot evaluate, so the Python string operations the parsers
use are modelled directly on the character list of the string: `strip()`,
single-character `split(sep)` and `split(sep, 1)[-1]`.
-/

/-- Python `str.strip()`: drop whitespace from both ends. -/
def pyStripChars (s : List Char) : List Char :=
  ((s.dropWhile Char.isWhitespace).reverse.dropWhile Char.isWhitespace).reverse

/-- Python `str.strip()` on a string value. -/
def pyStrip (s : String) : String := ⟨pyStripChars s.data⟩

/-- Python `str.split(sep)` for a one-character separator. -/
def splitOnChar (c : Char) : List Char → List (List Char)
  | [] => [[]]
  | x :: rest =>
    match splitOnChar c rest with
    | [] => []
    | h :: t => if x == c then [] :: h :: t else (x :: h) :: t

/-- Everything after the first occurrence of `c`. -/
def afterFirstChar (c : Char) : List Char → List Char
  | [] => []
  | x :: rest => if x == c then rest else afterFirstChar c rest

/-- Python `str.split(sep, 1)[-1]` for a one-character separator: the
part after the first occurrence, or the whole string when `sep` is
absent. -/
def splitFirstRest (c : Char) (l : List Char) : List Char :=
  if l.contains c then afterFirstChar c l else l

/-!
## `utils/openai_calls.py`

A raw batch result record is the parsed JSON object of one output-file
line: a `custom_id` and an optional `response.body.choices[0].message.content`
path.  Missing keys at any level of the path (and a JSON-null content,
which makes Python's `.strip()` raise the `AttributeError` the function
catches) are modelled by `Option`.
-/

structure BatchMessage where
  content : Option String
deriving DecidableEq

structure BatchChoice where
  message : Option BatchMessage
deriving DecidableEq

structure BatchResponseBody where
  choices : List BatchChoice
deriving DecidableEq

structure BatchResponse where
  body : Option BatchResponseBody
deriving DecidableEq

structure BatchRecord where
  custom_id : Option String
  response : Option BatchResponse
deriving DecidableEq

/-- `extract_batch_result`: walk `response.body.choices[0].message.content`,
returning `""` whenever the path is missing, the choice list is empty, or
the content is null, and stripping the text otherwise. -/
def extract_batch_result (result : BatchRecord) : String :=
  match result.response with
  | none => ""
  | some resp =>
    match resp.body with
    | none => ""
    | some body =>
      match body.choices with
      | [] => ""
      | choice :: _ =>
        match choice.message with
        | none => ""
        | some msg => pyStrip (msg.content.getD "")

/-- `BatchJobStatus` (pydantic model). -/
structure BatchJobStatus where
  job_id : String
  status : String
  input_file_id : String
  output_file_id : Option String := none
  error_file_id : Option String := none
deriving DecidableEq

/-- `BatchJobStatus.is_complete`:
`self.status in {"completed", "failed", "expired", "cancelled"}`. -/
def BatchJobStatus.is_complete (s : BatchJobStatus) : Bool :=
  s.status == "completed" || s.status == "failed" || s.status == "expired"
    || s.status == "cancelled"

/-- An entry of the `requests` list handed to `send_batch`, as
`build_batch_request` shapes it: the `body.messages` singleton is
flattened to its prompt text and the constant float `temperature` field
is not modelled. -/
structure BatchRequest where
  custom_id : String
  method : String
  url : String
  model : String
  prompt : String
deriving DecidableEq

/-- `build_batch_request`. -/
def build_batch_request (custom_id : String) (prompt : String)
    (model : String) : BatchRequest :=
  { custom_id := custom_id
    method := "POST"
    url := "/v1/chat/completions"
    model := model
    prompt := prompt }

/-- The error class raised for a missing credential or (per the spec's
§7 taxonomy) an empty request batch. -/
inductive ConfigError where
  | configurationError (msg : String)
deriving DecidableEq

/-- `OpenAIClient.send_batch`: serializes `requests` to a JSONL file (one
line per request, verbatim), uploads the file and creates the job.  The
function body performs no validation of `requests` — it has no branch
that raises for an empty list (or any other shape), so the embedding
returns the written batch unconditionally. -/
def send_batch (requests : List BatchRequest) :
    Except ConfigError (List BatchRequest) :=
  Except.ok requests

/-- `OpenAIClient.get_batch_results`: `if not status.output_file_id:
return []` (true for both `None` and `""`), else the parsed records of
the downloaded output file — every non-blank line, with no filtering on
content.  The parsed download is passed in as `output_records`. -/
def get_batch_results (status : BatchJobStatus)
    (output_records : List BatchRecord) : List BatchRecord :=
  if status.output_file_id.getD "" = "" then [] else output_records

/-- `_wait_for_batch` (textually identical in both pipeline classes):
check the job, sleep and re-check while not `is_complete`, then fetch the
results.  The successive statuses the remote would return are passed as
`polls`; `none` models the loop never observing a terminal status (it
then never exits). -/
def wait_for_batch (polls : List BatchJobStatus)
    (fetch : List BatchRecord) : Option (List BatchRecord) :=
  match polls with
  | [] => none
  | s :: rest =>
    if s.is_complete then some fetch else wait_for_batch rest fetch

/-- The spec's `PhaseResult` mapping view of a raw record list: the key's
record, if present, mapped to its extracted content. -/
def phase_result_lookup (records : List BatchRecord) (key : String) :
    Option String :=
  (records.find? fun r => r.custom_id.getD "" == key).map
    extract_batch_result

/-!
## Shared pipeline material

An input article is a Python dict from column name to string value.  The
five `_build_*_map` helpers of the two pipeline classes all share one
shape, `results_map`: fold over the raw records, take `custom_id`
(defaulting to `""`) and the extracted content, skip the record when the
content is empty (Python `if content:`), otherwise assign
`map[custom_id] = parse(content)` — later assignments shadowing earlier
ones as dict assignment does.
-/

abbrev Article := List (String × String)

def results_map_step {α : Type} (parse : String → α)
    (m : String → Option α) (result : BatchRecord) : String → Option α :=
  let custom_id := result.custom_id.getD ""
  let content := extract_batch_result result
  if content = "" then m
  else fun k => if k = custom_id then some (parse content) else m k

def results_map {α : Type} (parse : String → α)
    (records : List BatchRecord) : String → Option α :=
  records.foldl (results_map_step parse) (fun _ => none)

/-- The class of a raised Python exception, as far as the pipelines'
`except (ValueError, KeyError, RuntimeError)` clauses care: one of the
three caught classes, or any other class (e.g. a transport error from the
OpenAI client). -/
inductive ExcClass where
  | valueError
  | keyError
  | runtimeError
  | otherError
deriving DecidableEq

structure PyErr where
  excClass : ExcClass
  msg : String
deriving DecidableEq

/-- Whether `except (ValueError, KeyError, RuntimeError)` catches `e`. -/
def PyErr.caught (e : PyErr) : Bool :=
  match e.excClass with
  | ExcClass.otherError => false
  | _ => true

/-!
## `pipelines/direct_extraction/direct_extraction.py`
-/

namespace DirectExtraction

/-- The state `DirectArgumentExtractor.__init__` loads: the model name
and the two YAML prompt templates; `template.format(...)` is modelled as
an opaque function of the substituted values. -/
structure Extractor where
  model : String
  conclusion_extraction_prompt : String → String
  premise_extraction_prompt : String → String → String

/-- One entry of the `arguments` list:
`{"conclusion": ..., "premises": [...]}`. -/
structure DirectArgument where
  conclusion : String
  premises : List String
deriving DecidableEq

/-- `DirectExtractionResult` (dataclass, with its field defaults). -/
structure DirectExtractionResult where
  text : String
  article_id : Option String := none
  conclusions : Option (List String) := none
  arguments : Option (List DirectArgument) := none
  success : Bool := false
  error_message : Option String := none
deriving DecidableEq

/-- `_parse_list_items`: keep the stripped lines that start with a digit
or a dash; on such a line, take the part after the first `"."` when one
occurs, strip leading `"-"`/`" "` characters, strip whitespace, and drop
the line when nothing remains. -/
def parse_list_items (text : String) : List String :=
  (splitOnChar '\n' text.data).filterMap fun raw_line =>
    let cleaned_line := pyStripChars raw_line
    if cleaned_line.isEmpty then none
    else
      let is_numbered := (cleaned_line.headD ' ').isDigit
      let is_bulleted := cleaned_line.headD ' ' == '-'
      if is_numbered || is_bulleted then
        let item :=
          if cleaned_line.contains '.' then
            pyStripChars (splitFirstRest '.' cleaned_line)
          else cleaned_line
        let item :=
          pyStripChars (item.dropWhile fun c => c == '-' || c == ' ')
        if item.isEmpty then none else some (⟨item⟩ : String)
      else none

/-- The phase-1 correlation key `f"c_{i}"`. -/
def conclusion_key (i : Nat) : String := "c_" ++ natStr i

/-- The phase-2 correlation key `f"p_{i}_{j}"`. -/
def premise_key (i j : Nat) : String :=
  "p_" ++ natStr i ++ "_" ++ natStr j

/-- `_build_conclusions_map`. -/
def build_conclusions_map (phase1_results : List BatchRecord) :
    String → Option (List String) :=
  results_map parse_list_items phase1_results

/-- `_build_premises_map`. -/
def build_premises_map (phase2_results : List BatchRecord) :
    String → Option (List String) :=
  results_map parse_list_items phase2_results

/-- The request list `_batch_phase1` builds: one request per article that
has the text column, keyed `f"c_{i}"` with `i` the article's position in
the input list. -/
def batch_phase1_requests (self : Extractor) (articles : List Article)
    (text_column : String) : List BatchRequest :=
  articles.enum.filterMap fun p =>
    (List.lookup text_column p.2).map fun text =>
      build_batch_request (conclusion_key p.1)
        (self.conclusion_extraction_prompt text) self.model

/-- The request list `_batch_phase2` accumulates: for each article with
the text column, one request per conclusion the phase-1 map holds for its
key, keyed `f"p_{i}_{j}"`. -/
def batch_phase2_requests (self : Extractor) (articles : List Article)
    (phase1_results : List BatchRecord) (text_column : String) :
    List BatchRequest :=
  let conclusions_map := build_conclusions_map phase1_results
  articles.enum.foldl
    (fun requests p =>
      match List.lookup text_column p.2 with
      | none => requests
      | some text =>
        let conclusions := (conclusions_map (conclusion_key p.1)).getD []
        requests ++ conclusions.enum.map fun q =>
          build_batch_request (premise_key p.1 q.1)
            (self.premise_extraction_prompt text q.2) self.model)
    []

/-- `_batch_phase2`'s control flow around the request list: when it is
empty, log and return `[]` without submitting; otherwise submit and wait.
`run_job` stands for `send_batch` + `_wait_for_batch` reaching a terminal
state. -/
def batch_phase2 (self : Extractor) (articles : List Article)
    (phase1_results : List BatchRecord) (text_column : String)
    (run_job : List BatchRequest → List BatchRecord) : List BatchRecord :=
  let requests :=
    batch_phase2_requests self articles phase1_results text_column
  if requests.isEmpty then [] else run_job requests

/-- `_combine_results`: one `DirectExtractionResult` per input article,
in input order; the maps are consulted at keys `f"c_{i}"` / `f"p_{i}_{j}"`
with `.get(key, [])` defaults. -/
def combine_results (articles : List Article)
    (phase1_results phase2_results : List BatchRecord)
    (text_column : String) (id_column : Option String) :
    List DirectExtractionResult :=
  let conclusions_map := build_conclusions_map phase1_results
  let premises_map := build_premises_map phase2_results
  articles.enum.map fun p =>
    let article_id :=
      if id_column.getD "" = "" then none
      else List.lookup (id_column.getD "") p.2
    let text := (List.lookup text_column p.2).getD ""
    let conclusions := (conclusions_map (conclusion_key p.1)).getD []
    let arguments_list := conclusions.enum.map fun q =>
      { conclusion := q.2
        premises := (premises_map (premise_key p.1 q.1)).getD []
        : DirectArgument }
    { text := text
      article_id := article_id
      conclusions := some conclusions
      arguments := some arguments_list
      success := decide (arguments_list.length > 0)
      error_message :=
        if arguments_list.length > 0 then none
        else some "No arguments extracted" }

/-- `extract_conclusions`: one synchronous call, response parsed as a
list. -/
def extract_conclusions (self : Extractor)
    (call : String → Except PyErr String) (text : String) :
    Except PyErr (List String) :=
  (call (self.conclusion_extraction_prompt text)).map parse_list_items

/-- `extract_premises`. -/
def extract_premises (self : Extractor)
    (call : String → Except PyErr String) (text conclusion : String) :
    Except PyErr (List String) :=
  (call (self.premise_extraction_prompt text conclusion)).map
    parse_list_items

/-- `_process_conclusions`: sequential per-conclusion calls; the first
raised error aborts the rest. -/
def process_conclusions (self : Extractor)
    (call : String → Except PyErr String) (conclusions : List String)
    (text : String) : Except PyErr (List DirectArgument) :=
  match conclusions with
  | [] => Except.ok []
  | conclusion :: rest =>
    match extract_premises self call text conclusion with
    | Except.error e => Except.error e
    | Except.ok premises =>
      match process_conclusions self call rest text with
      | Except.error e => Except.error e
      | Except.ok args =>
        Except.ok ({ conclusion := conclusion, premises := premises } :: args)

/-- `process_single`: build the result record, run both phases inside
`try`, and catch exactly `(ValueError, KeyError, RuntimeError)` into
`error_message`; any other exception class propagates to the caller
(modelled as `Except.error`). -/
def process_single (self : Extractor)
    (call : String → Except PyErr String) (text : String)
    (article_id : Option String) :
    Except PyErr DirectExtractionResult :=
  match extract_conclusions self call text with
  | Except.error e =>
    if e.caught then
      Except.ok { text := text, article_id := article_id,
                  error_message := some e.msg }
    else Except.error e
  | Except.ok conclusions =>
    match process_conclusions self call conclusions text with
    | Except.error e =>
      if e.caught then
        Except.ok { text := text, article_id := article_id,
                    conclusions := some conclusions,
                    error_message := some e.msg }
      else Except.error e
    | Except.ok arguments_list =>
      Except.ok { text := text, article_id := article_id,
                  conclusions := some conclusions,
                  arguments := some arguments_list,
                  success := true }

end DirectExtraction

/-!
## `pipelines/socratic_extraction/socratic_extraction.py`
-/

namespace SocraticExtraction

/-- The state `QAArgumentExtractor.__init__` loads. -/
structure Extractor where
  model : String
  question_extraction_prompt : String → String
  question_answering_prompt : String → String → String
  argument_construction_prompt : String → String → String

/-- One entry of the `arguments` list:
`{"question": ..., "answer": ..., "claim": ..., "premises": [...]}`. -/
structure QAArgument where
  question : String
  answer : String
  claim : String
  premises : List String
deriving DecidableEq

/-- `QAResult` (dataclass, with its field defaults). -/
structure QAResult where
  text : String
  article_id : Option String := none
  questions : Option (List String) := none
  arguments : Option (List QAArgument) := none
  success : Bool := false
  error_message : Option String := none
deriving DecidableEq

/-- The `{"claim": ..., "premises": [...]}` dict `_parse_argument`
returns (both keys always present). -/
structure ParsedArgument where
  claim : String
  premises : List String
deriving DecidableEq

/-- `_parse_questions`: the same line scan as the direct pipeline's
`_parse_list_items` (duplicated in the source), truncated to the first
ten parsed items by the final `[:10]`. -/
def parse_questions (text : String) : List String :=
  ((splitOnChar '\n' text.data).filterMap fun raw_line =>
    let cleaned_line := pyStripChars raw_line
    if cleaned_line.isEmpty then none
    else
      let is_numbered := (cleaned_line.headD ' ').isDigit
      let is_bulleted := cleaned_line.headD ' ' == '-'
      if is_numbered || is_bulleted then
        let question :=
          if cleaned_line.contains '.' then
            pyStripChars (splitFirstRest '.' cleaned_line)
          else cleaned_line
        let question :=
          pyStripChars (question.dropWhile fun c => c == '-' || c == ' ')
        if question.isEmpty then none else some (⟨question⟩ : String)
      else none).take 10

/-- `_parse_argument`: scan the lines with a current-section state;
`Claim:` lines set the claim, `Premises:` switches section, and numbered
or dashed lines inside the premises section append a premise. -/
def parse_argument (text : String) : ParsedArgument :=
  (((splitOnChar '\n' text.data).foldl
    (fun (st : ParsedArgument × Option String) raw_line =>
      let cleaned_line := pyStripChars raw_line
      if "Claim:".data.isPrefixOf cleaned_line then
        ({ st.1 with
            claim := ⟨pyStripChars (splitFirstRest ':' cleaned_line)⟩ },
          some "claim")
      else if "Premises:".data.isPrefixOf cleaned_line then
        (st.1, some "premises")
      else if st.2 == some "premises" && !cleaned_line.isEmpty then
        let is_numbered := (cleaned_line.headD ' ').isDigit
        let is_bulleted := cleaned_line.headD ' ' == '-'
        if is_numbered || is_bulleted then
          let premise :=
            if cleaned_line.contains '.' then
              pyStripChars (splitFirstRest '.' cleaned_line)
            else cleaned_line
          let premise :=
            pyStripChars (premise.dropWhile fun c => c == '-' || c == ' ')
          if premise.isEmpty then st
          else ({ st.1 with premises := st.1.premises ++ [⟨premise⟩] }, st.2)
        else st
      else st)
    ({ claim := "", premises := [] }, none))).1

/-- The phase-1 correlation key `f"q_{i}"`. -/
def question_key (i : Nat) : String := "q_" ++ natStr i

/-- The phase-2 correlation key `f"qa_{i}_{j}"`. -/
def qa_key (i j : Nat) : String :=
  "qa_" ++ natStr i ++ "_" ++ natStr j

/-- The phase-3 correlation key `f"arg_{i}_{j}"`. -/
def arg_key (i j : Nat) : String :=
  "arg_" ++ natStr i ++ "_" ++ natStr j

/-- `_build_questions_map`. -/
def build_questions_map (phase1_results : List BatchRecord) :
    String → Option (List String) :=
  results_map parse_questions phase1_results

/-- `_build_answers_map` (the content itself is the value). -/
def build_answers_map (phase2_results : List BatchRecord) :
    String → Option String :=
  results_map (fun content => content) phase2_results

/-- `_build_arguments_map`. -/
def build_arguments_map (phase3_results : List BatchRecord) :
    String → Option ParsedArgument :=
  results_map parse_argument phase3_results

/-- The request list `_batch_phase1` builds: one per article with the
text column, keyed `f"q_{i}"`. -/
def batch_phase1_requests (self : Extractor) (articles : List Article)
    (text_column : String) : List BatchRequest :=
  articles.enum.filterMap fun p =>
    (List.lookup text_column p.2).map fun text =>
      build_batch_request (question_key p.1)
        (self.question_extraction_prompt text) self.model

/-- The request list `_batch_phase2` accumulates: one request per
(article, question) pair, keyed `f"qa_{i}_{j}"`. -/
def batch_phase2_requests (self : Extractor) (articles : List Article)
    (phase1_results : List BatchRecord) (text_column : String) :
    List BatchRequest :=
  let questions_map := build_questions_map phase1_results
  articles.enum.foldl
    (fun requests p =>
      match List.lookup text_column p.2 with
      | none => requests
      | some text =>
        let questions := (questions_map (question_key p.1)).getD []
        requests ++ questions.enum.map fun q =>
          build_batch_request (qa_key p.1 q.1)
            (self.question_answering_prompt q.2 text) self.model)
    []

/-- `_batch_phase2`'s control flow: an empty request list short-circuits
to `[]` without submitting a job. -/
def batch_phase2 (self : Extractor) (articles : List Article)
    (phase1_results : List BatchRecord) (text_column : String)
    (run_job : List BatchRequest → List BatchRecord) : List BatchRecord :=
  let requests :=
    batch_phase2_requests self articles phase1_results text_column
  if requests.isEmpty then [] else run_job requests

/-- The request list `_batch_phase3` accumulates: for each (article,
question) pair, a request keyed `f"arg_{i}_{j}"` is added only when
`answers_map.get(f"qa_{i}_{j}")` is present and truthy (non-empty). -/
def batch_phase3_requests (self : Extractor) (articles : List Article)
    (phase1_results phase2_results : List BatchRecord)
    (text_column : String) : List BatchRequest :=
  let questions_map := build_questions_map phase1_results
  let answers_map := build_answers_map phase2_results
  articles.enum.foldl
    (fun requests p =>
      match List.lookup text_column p.2 with
      | none => requests
      | some _ =>
        let questions := (questions_map (question_key p.1)).getD []
        requests ++ questions.enum.filterMap fun q =>
          match answers_map (qa_key p.1 q.1) with
          | none => none
          | some answer =>
            if answer = "" then none
            else some (build_batch_request (arg_key p.1 q.1)
              (self.argument_construction_prompt q.2 answer) self.model))
    []

/-- `_batch_phase3`'s control flow: an empty request list short-circuits
to `[]` without submitting a job. -/
def batch_phase3 (self : Extractor) (articles : List Article)
    (phase1_results phase2_results : List BatchRecord)
    (text_column : String)
    (run_job : List BatchRequest → List BatchRecord) : List BatchRecord :=
  let requests := batch_phase3_requests self articles phase1_results
    phase2_results text_column
  if requests.isEmpty then [] else run_job requests

/-- `_combine_results`: one `QAResult` per input article, in input
order; an `arguments` entry is appended for question `j` only when both
`answers_map.get(f"qa_{i}_{j}")` and `arguments_map.get(f"arg_{i}_{j}")`
are present and truthy. -/
def combine_results (articles : List Article)
    (phase1_results phase2_results phase3_results : List BatchRecord)
    (text_column : String) (id_column : Option String) :
    List QAResult :=
  let questions_map := build_questions_map phase1_results
  let answers_map := build_answers_map phase2_results
  let arguments_map := build_arguments_map phase3_results
  articles.enum.map fun p =>
    let article_id :=
      if id_column.getD "" = "" then none
      else List.lookup (id_column.getD "") p.2
    let text := (List.lookup text_column p.2).getD ""
    let questions := (questions_map (question_key p.1)).getD []
    let arguments_list := questions.enum.filterMap fun q =>
      match answers_map (qa_key p.1 q.1), arguments_map (arg_key p.1 q.1) with
      | some answer, some arg =>
        if answer = "" then none
        else some { question := q.2, answer := answer, claim := arg.claim,
                    premises := arg.premises : QAArgument }
      | _, _ => none
    { text := text
      article_id := article_id
      questions := some questions
      arguments := some arguments_list
      success := decide (arguments_list.length > 0)
      error_message :=
        if arguments_list.length > 0 then none
        else some "No arguments extracted" }

/-- `extract_questions`. -/
def extract_questions (self : Extractor)
    (call : String → Except PyErr String) (text : String) :
    Except PyErr (List String) :=
  (call (self.question_extraction_prompt text)).map parse_questions

/-- `answer_question`. -/
def answer_question (self : Extractor)
    (call : String → Except PyErr String) (question article : String) :
    Except PyErr String :=
  call (self.question_answering_prompt question article)

/-- `construct_argument`. -/
def construct_argument (self : Extractor)
    (call : String → Except PyErr String) (question answer : String) :
    Except PyErr ParsedArgument :=
  (call (self.argument_construction_prompt question answer)).map
    parse_argument

/-- `_process_questions`: sequential per-question answer + argument
calls; the first raised error aborts the rest. -/
def process_questions (self : Extractor)
    (call : String → Except PyErr String) (questions : List String)
    (text : String) : Except PyErr (List QAArgument) :=
  match questions with
  | [] => Except.ok []
  | question :: rest =>
    match answer_question self call question text with
    | Except.error e => Except.error e
    | Except.ok answer =>
      match construct_argument self call question answer with
      | Except.error e => Except.error e
      | Except.ok arg =>
        match process_questions self call rest text with
        | Except.error e => Except.error e
        | Except.ok args =>
          Except.ok ({ question := question, answer := answer,
                       claim := arg.claim, premises := arg.premises } :: args)

/-- `process_single`: as in the direct pipeline, exactly
`(ValueError, KeyError, RuntimeError)` are caught into `error_message`;
any other exception class propagates. -/
def process_single (self : Extractor)
    (call : String → Except PyErr String) (text : String)
    (article_id : Option String) : Except PyErr QAResult :=
  match extract_questions self call text with
  | Except.error e =>
    if e.caught then
      Except.ok { text := text, article_id := article_id,
                  error_message := some e.msg }
    else Except.error e
  | Except.ok questions =>
    match process_questions self call questions text with
    | Except.error e =>
      if e.caught then
        Except.ok { text := text, article_id := article_id,
                    questions := some questions,
                    error_message := some e.msg }
      else Except.error e
    | Except.ok arguments_list =>
      Except.ok { text := text, article_id := article_id,
                  questions := some questions,
                  arguments := some arguments_list,
                  success := true }

end SocraticExtraction

/-!
## Lemmas about the shared dict builder
-/

theorem results_map_step_no_match {α : Type} (parse : String → α)
    (m : String → Option α) (r : BatchRecord) (k : String)
    (h : extract_batch_result r = "" ∨ r.custom_id.getD "" ≠ k) :
    results_map_step parse m r k = m k := by
  simp only [results_map_step]
  rcases h with h | h
  · simp [h]
  · by_cases hc : extract_batch_result r = ""
    · simp [hc]
    · rw [if_neg hc]
      show (if k = r.custom_id.getD "" then some (parse (extract_batch_result r))
        else m k) = m k
      exact if_neg fun hk => h hk.symm

theorem foldl_results_map_no_match {α : Type} (parse : String → α)
    (records : List BatchRecord) (m : String → Option α) (k : String)
    (h : ∀ r ∈ records,
      extract_batch_result r = "" ∨ r.custom_id.getD "" ≠ k) :
    records.foldl (results_map_step parse) m k = m k := by
  induction records generalizing m with
  | nil => rfl
  | cons r rest ih =>
    rw [List.foldl_cons,
      ih _ (fun r2 hr => h r2 (List.mem_cons_of_mem _ hr))]
    exact results_map_step_no_match parse m r k (h r (List.mem_cons_self _ _))

theorem results_map_no_match {α : Type} (parse : String → α)
    (records : List BatchRecord) (k : String)
    (h : ∀ r ∈ records,
      extract_batch_result r = "" ∨ r.custom_id.getD "" ≠ k) :
    results_map parse records k = none :=
  foldl_results_map_no_match parse records _ k h

theorem results_map_found {α : Type} (parse : String → α)
    (xs ys : List BatchRecord) (r : BatchRecord) (k : String)
    (hcid : r.custom_id.getD "" = k) (hc : extract_batch_result r ≠ "")
    (hys : ∀ r2 ∈ ys,
      extract_batch_result r2 = "" ∨ r2.custom_id.getD "" ≠ k) :
    results_map parse (xs ++ r :: ys) k
      = some (parse (extract_batch_result r)) := by
  rw [results_map, List.foldl_append, List.foldl_cons,
    foldl_results_map_no_match parse ys _ k hys]
  simp [results_map_step, hc, hcid]

theorem foldl_results_map_some {α : Type} (parse : String → α)
    (records : List BatchRecord) (m : String → Option α) (k : String)
    (v : α) (hm : m k = some v → ∃ s, s ≠ "" ∧ v = parse s)
    (h : records.foldl (results_map_step parse) m k = some v) :
    ∃ s, s ≠ "" ∧ v = parse s := by
  induction records generalizing m with
  | nil => exact hm h
  | cons r rest ih =>
    refine ih _ ?_ h
    intro hs
    simp only [results_map_step] at hs
    by_cases hc : extract_batch_result r = ""
    · rw [if_pos hc] at hs
      exact hm hs
    · rw [if_neg hc] at hs
      by_cases hk : k = r.custom_id.getD ""
      · rw [if_pos hk] at hs
        exact ⟨_, hc, (Option.some_inj.mp hs).symm⟩
      · rw [if_neg hk] at hs
        exact hm hs

theorem results_map_some {α : Type} (parse : String → α)
    (records : List BatchRecord) (k : String) (v : α)
    (h : results_map parse records k = some v) :
    ∃ s, s ≠ "" ∧ v = parse s :=
  foldl_results_map_some parse records _ k v (by intro hs; cases hs) h

/-!
## The claims
-/

/-- C1: `process_batch`'s combination step, in either pipeline variant,
returns exactly one result per input article, in input order — the list
has the input's length and the `i`-th result is built from the `i`-th
article's text and id columns — whatever the phase-result lists hold
(missing, empty or partial). -/
theorem combine_results_one_per_article
    (articles : List Article) (p1 p2 p3 : List BatchRecord)
    (tc : String) (ic : Option String) :
    (DirectExtraction.combine_results articles p1 p2 tc ic).length
      = articles.length
    ∧ (SocraticExtraction.combine_results articles p1 p2 p3 tc ic).length
      = articles.length
    ∧ ∀ (i : Nat) (a : Article), articles[i]? = some a →
      ((DirectExtraction.combine_results articles p1 p2 tc ic)[i]?).map
          (fun r : DirectExtraction.DirectExtractionResult =>
            (r.text, r.article_id))
        = some ((List.lookup tc a).getD "",
            if ic.getD "" = "" then none else List.lookup (ic.getD "") a)
      ∧ ((SocraticExtraction.combine_results articles p1 p2 p3 tc ic)[i]?).map
          (fun r : SocraticExtraction.QAResult => (r.text, r.article_id))
        = some ((List.lookup tc a).getD "",
            if ic.getD "" = "" then none else List.lookup (ic.getD "") a) := by
  refine ⟨?_, ?_, ?_⟩
  · simp [DirectExtraction.combine_results, List.enum_length]
  · simp [SocraticExtraction.combine_results, List.enum_length]
  · intro i a ha
    constructor
    · simp [DirectExtraction.combine_results, List.getElem?_map,
        List.getElem?_enum, ha]
    · simp [SocraticExtraction.combine_results, List.getElem?_map,
        List.getElem?_enum, ha]

/-- Witness for C1 at a one-article input with empty phase results. -/
theorem combine_results_one_per_article_witness :
    ((DirectExtraction.combine_results [[("text", "hello")]] [] [] "text"
        none)[0]?).map (fun r : DirectExtraction.DirectExtractionResult =>
          (r.text, r.article_id))
      = some ("hello", none) := by
  have h := (combine_results_one_per_article [[("text", "hello")]] [] [] []
    "text" none).2.2 0 [("text", "hello")] rfl
  simpa using h.1

/-- C6: when a phase's result map misses the key for article `i`, the
joiner (either variant) assigns the empty list as that article's phase
output — the lookup defaults, nothing is raised — and still produces a
result for every article. -/
theorem combine_results_missing_key
    (articles : List Article) (p1 p2 p3 : List BatchRecord)
    (tc : String) (ic : Option String) (i : Nat) (a : Article)
    (ha : articles[i]? = some a)
    (h1 : DirectExtraction.build_conclusions_map p1
      (DirectExtraction.conclusion_key i) = none)
    (h1q : SocraticExtraction.build_questions_map p1
      (SocraticExtraction.question_key i) = none) :
    ((DirectExtraction.combine_results articles p1 p2 tc ic)[i]?).map
        (fun r : DirectExtraction.DirectExtractionResult =>
          (r.conclusions, r.arguments))
      = some (some [], some [])
    ∧ (DirectExtraction.combine_results articles p1 p2 tc ic).length
      = articles.length
    ∧ ((SocraticExtraction.combine_results articles p1 p2 p3 tc ic)[i]?).map
        (fun r : SocraticExtraction.QAResult => (r.questions, r.arguments))
      = some (some [], some [])
    ∧ (SocraticExtraction.combine_results articles p1 p2 p3 tc ic).length
      = articles.length := by
  refine ⟨?_, ?_, ?_, ?_⟩
  · simp [DirectExtraction.combine_results, List.getElem?_map,
      List.getElem?_enum, ha, h1]
  · simp [DirectExtraction.combine_results, List.enum_length]
  · simp [SocraticExtraction.combine_results, List.getElem?_map,
      List.getElem?_enum, ha, h1q]
  · simp [SocraticExtraction.combine_results, List.enum_length]

/-- Witness for C6: one article, empty phase-result lists (so every key
is missing). -/
theorem combine_results_missing_key_witness :
    ((DirectExtraction.combine_results [[("text", "hello")]] [] [] "text"
        none)[0]?).map
      (fun r : DirectExtraction.DirectExtractionResult =>
        (r.conclusions, r.arguments))
      = some (some [], some []) :=
  (combine_results_missing_key [[("text", "hello")]] [] [] [] "text" none 0
    [("text", "hello")] rfl rfl rfl).1

/-- A concrete direct-variant extractor with identity-shaped prompt
templates, for witnesses and counterexamples. -/
def testExtractorD : DirectExtraction.Extractor :=
  { model := "gpt-4o-mini"
    conclusion_extraction_prompt := fun t => t
    premise_extraction_prompt := fun t c => t ++ c }

/-- A concrete question-answer-variant extractor with identity-shaped
prompt templates. -/
def testExtractorQ : SocraticExtraction.Extractor :=
  { model := "gpt-4o-mini"
    question_extraction_prompt := fun t => t
    question_answering_prompt := fun q a => q ++ a
    argument_construction_prompt := fun q a => q ++ a }

/-- C2 counterexample: in single mode a run whose calls succeed but parse
to nothing returns `success = true` with `arguments = some []` — so
`success == true iff arguments non-empty` fails for `process_single`. -/
theorem success_invariant_counterexample :
    ¬ ∀ r : DirectExtraction.DirectExtractionResult,
      DirectExtraction.process_single testExtractorD
          (fun _ => Except.ok "") "t" none = Except.ok r →
        (r.success = true ↔ r.arguments.getD [] ≠ []) := by
  intro h
  have hr := h
    { text := "t", conclusions := some [], arguments := some [],
      success := true } rfl
  simp at hr

/-- The `error_message`/`success` fields of a combined result, as a
function of the arguments list. -/
theorem if_length_message {β : Type} (L : List β) :
    ((if L.length > 0 then none
      else some "No arguments extracted" : Option String).isSome = true
      ↔ (decide (L.length > 0) = false)) := by
  by_cases h : L.length > 0 <;> simp [h]

/-- C2 (amended): the invariant holds as stated for every batch-mode
result of `_combine_results` in both variants; in single mode
`error_message` is set iff `success` is false, but `success` reflects
only the absence of a caught exception — `process_single` can return
`success = true` with an empty `arguments` list. -/
theorem success_invariant
    (articles : List Article) (p1 p2 p3 : List BatchRecord) (tc : String)
    (ic : Option String) (selfD : DirectExtraction.Extractor)
    (selfQ : SocraticExtraction.Extractor)
    (call : String → Except PyErr String) (text : String)
    (aid : Option String) :
    (∀ r ∈ DirectExtraction.combine_results articles p1 p2 tc ic,
      (r.success = true ↔ r.arguments.getD [] ≠ [])
      ∧ (r.error_message.isSome ↔ r.success = false))
    ∧ (∀ r ∈ SocraticExtraction.combine_results articles p1 p2 p3 tc ic,
      (r.success = true ↔ r.arguments.getD [] ≠ [])
      ∧ (r.error_message.isSome ↔ r.success = false))
    ∧ (∀ r, DirectExtraction.process_single selfD call text aid
        = Except.ok r → (r.error_message.isSome ↔ r.success = false))
    ∧ (∀ r, SocraticExtraction.process_single selfQ call text aid
        = Except.ok r → (r.error_message.isSome ↔ r.success = false)) := by
  refine ⟨?_, ?_, ?_, ?_⟩
  · intro r hr
    rw [DirectExtraction.combine_results] at hr
    simp only [List.mem_map] at hr
    obtain ⟨p, _, rfl⟩ := hr
    constructor
    · simp [List.length_pos]
    · exact if_length_message _
  · intro r hr
    rw [SocraticExtraction.combine_results] at hr
    simp only [List.mem_map] at hr
    obtain ⟨p, _, rfl⟩ := hr
    constructor
    · simp [List.length_pos]
    · exact if_length_message _
  · intro r hr
    rw [DirectExtraction.process_single] at hr
    split at hr
    · split at hr
      · cases hr
        simp
      · cases hr
    · split at hr
      · split at hr
        · cases hr
          simp
        · cases hr
      · cases hr
        simp
  · intro r hr
    rw [SocraticExtraction.process_single] at hr
    split at hr
    · split at hr
      · cases hr
        simp
      · cases hr
    · split at hr
      · split at hr
        · cases hr
          simp
        · cases hr
      · cases hr
        simp

/-- The single-mode output record of the C2 counterexample run. -/
def c2SingleOut : DirectExtraction.DirectExtractionResult :=
  { text := "t", conclusions := some [], arguments := some [],
    success := true }

/-- Witness for C2's amended statement: a concrete batch input whose
combined result is unsuccessful with its message set, and a concrete
single-mode result. -/
theorem success_invariant_witness :
    ((DirectExtraction.combine_results [[("text", "hello")]] [] [] "text"
          none).map
        (fun r : DirectExtraction.DirectExtractionResult =>
          (r.success, r.error_message.isSome)))
      = [(false, true)]
    ∧ (c2SingleOut.error_message.isSome ↔ c2SingleOut.success = false) := by
  constructor
  · rfl
  · exact (success_invariant [[("text", "hello")]] [] [] [] "text" none
      testExtractorD testExtractorQ (fun _ => Except.ok "") "t" none).2.2.1
      _ rfl

/-- C9 counterexample: a raised error whose class is not one of
`ValueError`/`KeyError`/`RuntimeError` (e.g. a transport error) is not
caught by `process_single` and propagates to the caller. -/
theorem process_single_error_counterexample :
    DirectExtraction.process_single testExtractorD
        (fun _ => Except.error ⟨ExcClass.otherError, "connection reset"⟩)
        "t" none
      = Except.error ⟨ExcClass.otherError, "connection reset"⟩ := rfl

/-- C9 (amended): `process_single` (either variant) catches exactly
`ValueError`/`KeyError`/`RuntimeError`: an error of a caught class raised
by a phase call is recorded in the returned result's `error_message`
with the remaining work aborted, while any propagated error is of a
non-caught class. -/
theorem process_single_error_containment
    (selfD : DirectExtraction.Extractor)
    (selfQ : SocraticExtraction.Extractor)
    (call : String → Except PyErr String) (text : String)
    (aid : Option String) (e : PyErr) :
    (∀ e2, DirectExtraction.process_single selfD call text aid
        = Except.error e2 → e2.caught = false)
    ∧ (∀ e2, SocraticExtraction.process_single selfQ call text aid
        = Except.error e2 → e2.caught = false)
    ∧ (e.caught = true →
      DirectExtraction.process_single selfD (fun _ => Except.error e) text
          aid
        = Except.ok { text := text
                      article_id := aid
                      error_message := some e.msg }
      ∧ SocraticExtraction.process_single selfQ (fun _ => Except.error e)
          text aid
        = Except.ok { text := text
                      article_id := aid
                      error_message := some e.msg }) := by
  refine ⟨?_, ?_, ?_⟩
  · intro e2 hr
    rw [DirectExtraction.process_single] at hr
    split at hr
    · split at hr
      · cases hr
      · rename_i hc
        cases hr
        simpa using hc
    · split at hr
      · split at hr
        · cases hr
        · rename_i hc
          cases hr
          simpa using hc
      · cases hr
  · intro e2 hr
    rw [SocraticExtraction.process_single] at hr
    split at hr
    · split at hr
      · cases hr
      · rename_i hc
        cases hr
        simpa using hc
    · split at hr
      · split at hr
        · cases hr
        · rename_i hc
          cases hr
          simpa using hc
      · cases hr
  · intro hc
    constructor
    · rw [DirectExtraction.process_single]
      simp [DirectExtraction.extract_conclusions, Except.map, hc]
    · rw [SocraticExtraction.process_single]
      simp [SocraticExtraction.extract_questions, Except.map, hc]

/-- Witness for C9's amended statement: a concrete caught `ValueError`
is recorded in `error_message` and nothing propagates. -/
theorem process_single_error_containment_witness :
    DirectExtraction.process_single testExtractorD
        (fun _ => Except.error ⟨ExcClass.valueError, "bad value"⟩) "t" none
      = Except.ok { text := "t"
                    article_id := none
                    error_message := some "bad value" } :=
  ((process_single_error_containment testExtractorD testExtractorQ
    (fun _ => Except.error ⟨ExcClass.valueError, "bad value"⟩) "t" none
    ⟨ExcClass.valueError, "bad value"⟩).2.2 rfl).1

theorem parse_questions_length_le (s : String) :
    (SocraticExtraction.parse_questions s).length ≤ 10 := by
  rw [SocraticExtraction.parse_questions]
  simp [List.length_take]

theorem build_questions_map_le_ten (p1 : List BatchRecord) (k : String) :
    ((SocraticExtraction.build_questions_map p1 k).getD []).length ≤ 10 := by
  cases hq : SocraticExtraction.build_questions_map p1 k with
  | none => simp
  | some v =>
    obtain ⟨s, _, rfl⟩ :=
      results_map_some SocraticExtraction.parse_questions p1 k v hq
    simpa using parse_questions_length_le s

theorem extract_questions_ok (selfQ : SocraticExtraction.Extractor)
    (call : String → Except PyErr String) (text : String)
    (qs : List String)
    (h : SocraticExtraction.extract_questions selfQ call text
      = Except.ok qs) :
    ∃ s, qs = SocraticExtraction.parse_questions s := by
  rw [SocraticExtraction.extract_questions] at h
  cases hc : call (selfQ.question_extraction_prompt text) with
  | error e =>
    rw [hc] at h
    cases h
  | ok s =>
    rw [hc] at h
    simp only [Except.map] at h
    cases h
    exact ⟨s, rfl⟩

theorem process_questions_length (selfQ : SocraticExtraction.Extractor)
    (call : String → Except PyErr String) :
    ∀ (qs : List String) (text : String)
      (args : List SocraticExtraction.QAArgument),
    SocraticExtraction.process_questions selfQ call qs text = Except.ok args
      → args.length = qs.length := by
  intro qs
  induction qs with
  | nil =>
    intro text args h
    cases h
    rfl
  | cons q rest ih =>
    intro text args h
    rw [SocraticExtraction.process_questions] at h
    split at h
    · cases h
    · split at h
      · cases h
      · split at h
        · cases h
        · rename_i args2 hargs
          cases h
          simp [ih text args2 hargs]

/-- C10: the question parser truncates to the first ten parsed items, so
every result's `questions` and `arguments` lists in the question-answer
variant have at most ten entries per article, in batch and in single
mode. -/
theorem at_most_ten_questions
    (t : String) (articles : List Article)
    (p1 p2 p3 : List BatchRecord) (tc : String) (ic : Option String)
    (selfQ : SocraticExtraction.Extractor)
    (call : String → Except PyErr String) (text : String)
    (aid : Option String) :
    (SocraticExtraction.parse_questions t).length ≤ 10
    ∧ (∀ r ∈ SocraticExtraction.combine_results articles p1 p2 p3 tc ic,
      (r.questions.getD []).length ≤ 10
      ∧ (r.arguments.getD []).length ≤ 10)
    ∧ (∀ r, SocraticExtraction.process_single selfQ call text aid
        = Except.ok r →
      (r.questions.getD []).length ≤ 10
      ∧ (r.arguments.getD []).length ≤ 10) := by
  refine ⟨parse_questions_length_le t, ?_, ?_⟩
  · intro r hr
    rw [SocraticExtraction.combine_results] at hr
    simp only [List.mem_map] at hr
    obtain ⟨p, _, rfl⟩ := hr
    constructor
    · simpa using build_questions_map_le_ten p1
        (SocraticExtraction.question_key p.1)
    · dsimp only
      refine le_trans (List.length_filterMap_le _ _) ?_
      simpa [List.enum_length] using build_questions_map_le_ten p1
        (SocraticExtraction.question_key p.1)
  · intro r hr
    rw [SocraticExtraction.process_single] at hr
    split at hr
    · split at hr
      · cases hr
        simp
      · cases hr
    · rename_i qs hqs
      split at hr
      · split at hr
        · cases hr
          obtain ⟨s, rfl⟩ := extract_questions_ok selfQ call text qs hqs
          simpa using parse_questions_length_le s
        · cases hr
      · rename_i args hargs
        cases hr
        obtain ⟨s, rfl⟩ := extract_questions_ok selfQ call text qs hqs
        have hlen := process_questions_length selfQ call _ text args hargs
        constructor
        · simpa using parse_questions_length_le s
        · simpa [hlen] using parse_questions_length_le s

/-- The combined result of the concrete one-article batch used by the
C10 witness. -/
def c10Out : SocraticExtraction.QAResult :=
  { text := "x"
    questions := some []
    arguments := some []
    success := false
    error_message := some "No arguments extracted" }

/-- Witness for C10 at a concrete batch result. -/
theorem at_most_ten_questions_witness :
    (c10Out.questions.getD []).length ≤ 10
    ∧ (c10Out.arguments.getD []).length ≤ 10 :=
  (at_most_ten_questions "t" [[("text", "x")]] [] [] [] "text" none
    testExtractorQ (fun _ => Except.ok "") "t" none).2.1 _ (by decide)

/-- A raw result record carrying a key and a successful content, as one
output-file line of a finished job parses. -/
def mk_record (k content : String) : BatchRecord :=
  { custom_id := some k
    response := some { body := some { choices :=
      [{ message := some { content := some content } }] } } }

/-- C4 counterexample: `send_batch` raises no `ConfigurationError` (nor
anything else) on an empty request list — it writes the empty file and
submits it. -/
theorem send_batch_empty_counterexample :
    send_batch [] = Except.ok [] := rfl

/-- C4 (amended): `send_batch` performs no emptiness validation — it
fails for no request list — while the later-phase callers do
special-case zero request items: `_batch_phase2` (both variants) and
`_batch_phase3` short-circuit to an empty result list without invoking
the job runner whenever their request lists are empty. -/
theorem empty_batch_handling
    (requests : List BatchRequest) (selfD : DirectExtraction.Extractor)
    (selfQ : SocraticExtraction.Extractor) (articles : List Article)
    (p1 p2 : List BatchRecord) (tc : String)
    (run_job : List BatchRequest → List BatchRecord) :
    send_batch requests = Except.ok requests
    ∧ (DirectExtraction.batch_phase2_requests selfD articles p1 tc = [] →
      DirectExtraction.batch_phase2 selfD articles p1 tc run_job = [])
    ∧ (SocraticExtraction.batch_phase2_requests selfQ articles p1 tc = [] →
      SocraticExtraction.batch_phase2 selfQ articles p1 tc run_job = [])
    ∧ (SocraticExtraction.batch_phase3_requests selfQ articles p1 p2 tc
        = [] →
      SocraticExtraction.batch_phase3 selfQ articles p1 p2 tc run_job
        = []) := by
  refine ⟨rfl, ?_, ?_, ?_⟩ <;> intro h <;>
    simp [DirectExtraction.batch_phase2, SocraticExtraction.batch_phase2,
      SocraticExtraction.batch_phase3, h]

/-- Witness for C4's amended statement: the empty article list yields an
empty phase-2 request list, and the phase short-circuits for every job
runner. -/
theorem empty_batch_handling_witness :
    send_batch [] = Except.ok []
    ∧ DirectExtraction.batch_phase2 testExtractorD [] [] "text"
        (fun _ => [mk_record "p_0_0" "1. x"]) = [] := by
  have h := empty_batch_handling [] testExtractorD testExtractorQ [] [] []
    "text" (fun _ => [mk_record "p_0_0" "1. x"])
  exact ⟨h.1, h.2.1 rfl⟩

/-- A terminal non-`completed` status with no output file. -/
def failedStatus : BatchJobStatus :=
  { job_id := "job", status := "failed", input_file_id := "in" }

/-- C8: `is_complete` is true exactly on the four terminal statuses; the
wait loop stops at the first terminal status — `failed`, `expired` and
`cancelled` included — and fetches the job's results, which are `[]`
whenever the status carries no output file id, with no failure path. -/
theorem terminal_status_handling
    (s : BatchJobStatus) (rest : List BatchJobStatus)
    (records : List BatchRecord) :
    (s.is_complete = true ↔
      (s.status = "completed" ∨ s.status = "failed" ∨ s.status = "expired"
        ∨ s.status = "cancelled"))
    ∧ (s.is_complete = true →
      wait_for_batch (s :: rest) (get_batch_results s records)
        = some (get_batch_results s records))
    ∧ (s.output_file_id = none → get_batch_results s records = []) := by
  refine ⟨?_, ?_, ?_⟩
  · simp [BatchJobStatus.is_complete, Bool.or_eq_true, beq_iff_eq,
      or_assoc]
  · intro h
    rw [wait_for_batch, if_pos h]
  · intro h
    simp [get_batch_results, h]

/-- Witness for C8: a `failed` job with no output file stops the poll
loop at once and yields the empty result list. -/
theorem terminal_status_handling_witness :
    wait_for_batch [failedStatus]
        (get_batch_results failedStatus [mk_record "k" "v"])
      = some (get_batch_results failedStatus [mk_record "k" "v"])
    ∧ get_batch_results failedStatus [mk_record "k" "v"] = [] := by
  have h := terminal_status_handling failedStatus [] [mk_record "k" "v"]
  exact ⟨h.2.1 (by decide), h.2.2 rfl⟩

/-- C7: the record list a phase run fetches keeps entries with no
parseable content: `get_batch_results` keeps every record whenever an
output file exists, `extract_batch_result` maps a content-less record to
`""`, and the `PhaseResult` mapping view sends a key that ran to a
present value (possibly `""`) while a key that never ran maps to `none`. -/
theorem absent_recorded_not_omitted
    (status : BatchJobStatus) (fid : String)
    (records : List BatchRecord) (r : BatchRecord) (key : String)
    (hfid : status.output_file_id = some fid) (hne : fid ≠ "")
    (hr : r ∈ records) (hk : r.custom_id = some key) :
    get_batch_results status records = records
    ∧ (phase_result_lookup records key).isSome = true
    ∧ (∀ rec : BatchRecord, rec.response = none
        → extract_batch_result rec = "")
    ∧ (∀ k2, (∀ r2 ∈ records, r2.custom_id.getD "" ≠ k2) →
      phase_result_lookup records k2 = none) := by
  refine ⟨?_, ?_, ?_, ?_⟩
  · simp [get_batch_results, hfid, hne]
  · have hfind : (records.find? fun r2 => r2.custom_id.getD "" == key).isSome
        := by
      rw [List.find?_isSome]
      exact ⟨r, hr, by simp [hk]⟩
    simpa [phase_result_lookup] using hfind
  · intro rec hrec
    simp [extract_batch_result, hrec]
  · intro k2 hk2
    rw [phase_result_lookup, List.find?_eq_none.mpr]
    · rfl
    · intro x hx
      simp [hk2 x hx]

/-- A record that ran but produced no parseable content. -/
def noContentRecord : BatchRecord :=
  { custom_id := some "c_0", response := none }

/-- A status for a finished job that does carry an output file. -/
def doneStatus : BatchJobStatus :=
  { job_id := "job", status := "completed", input_file_id := "in",
    output_file_id := some "out" }

/-- Witness for C7: a fetched list holding one content-less record keeps
it; its key maps to the present `some ""` while an unseen key maps to
`none`. -/
theorem absent_recorded_not_omitted_witness :
    get_batch_results doneStatus [noContentRecord] = [noContentRecord]
    ∧ (phase_result_lookup [noContentRecord] "c_0").isSome = true
    ∧ phase_result_lookup [noContentRecord] "c_1" = none := by
  have h := absent_recorded_not_omitted doneStatus "out" [noContentRecord]
    noContentRecord "c_0" rfl (by decide) (by decide) rfl
  exact ⟨h.1, h.2.1, h.2.2.2 "c_1" (by decide)⟩

/-!
## Correlation-key facts for the concrete key forms
-/

theorem conclusion_key_data (i : Nat) :
    (DirectExtraction.conclusion_key i).data
      = ['c'] ++ '_' :: decimalDigits i := by
  rw [DirectExtraction.conclusion_key, String.data_append]
  rfl

theorem question_key_data (i : Nat) :
    (SocraticExtraction.question_key i).data
      = ['q'] ++ '_' :: decimalDigits i := by
  rw [SocraticExtraction.question_key, String.data_append]
  rfl

theorem premise_key_data (i j : Nat) :
    (DirectExtraction.premise_key i j).data
      = ['p'] ++ '_' :: (decimalDigits i ++ '_' :: decimalDigits j) := by
  rw [DirectExtraction.premise_key]
  simp only [String.data_append]
  simp [show ("p_" : String).data = ['p', '_'] from rfl,
    show ("_" : String).data = ['_'] from rfl, natStr_data]

theorem qa_key_data (i j : Nat) :
    (SocraticExtraction.qa_key i j).data
      = ['q', 'a'] ++ '_' :: (decimalDigits i ++ '_' :: decimalDigits j) := by
  rw [SocraticExtraction.qa_key]
  simp only [String.data_append]
  simp [show ("qa_" : String).data = ['q', 'a', '_'] from rfl,
    show ("_" : String).data = ['_'] from rfl, natStr_data]

theorem arg_key_data (i j : Nat) :
    (SocraticExtraction.arg_key i j).data
      = ['a', 'r', 'g'] ++ '_' :: (decimalDigits i ++ '_' :: decimalDigits j)
      := by
  rw [SocraticExtraction.arg_key]
  simp only [String.data_append]
  simp [show ("arg_" : String).data = ['a', 'r', 'g', '_'] from rfl,
    show ("_" : String).data = ['_'] from rfl, natStr_data]

theorem conclusion_key_article_index (i : Nat) :
    key_article_index (DirectExtraction.conclusion_key i) = some i :=
  key_article_index_eq ['c'] (by decide) i (conclusion_key_data i)

theorem question_key_article_index (i : Nat) :
    key_article_index (SocraticExtraction.question_key i) = some i :=
  key_article_index_eq ['q'] (by decide) i (question_key_data i)

theorem premise_key_article_index (i j : Nat) :
    key_article_index (DirectExtraction.premise_key i j) = some i :=
  key_article_index_pair ['p'] (by decide) i j (premise_key_data i j)

theorem premise_key_item_index (i j : Nat) :
    key_item_index (DirectExtraction.premise_key i j) = some j :=
  key_item_index_pair ['p'] (by decide) i j (premise_key_data i j)

theorem qa_key_article_index (i j : Nat) :
    key_article_index (SocraticExtraction.qa_key i j) = some i :=
  key_article_index_pair ['q', 'a'] (by decide) i j (qa_key_data i j)

theorem qa_key_item_index (i j : Nat) :
    key_item_index (SocraticExtraction.qa_key i j) = some j :=
  key_item_index_pair ['q', 'a'] (by decide) i j (qa_key_data i j)

theorem arg_key_article_index (i j : Nat) :
    key_article_index (SocraticExtraction.arg_key i j) = some i :=
  key_article_index_pair ['a', 'r', 'g'] (by decide) i j (arg_key_data i j)

theorem arg_key_item_index (i j : Nat) :
    key_item_index (SocraticExtraction.arg_key i j) = some j :=
  key_item_index_pair ['a', 'r', 'g'] (by decide) i j (arg_key_data i j)

theorem conclusion_key_inj {i j : Nat}
    (h : DirectExtraction.conclusion_key i
      = DirectExtraction.conclusion_key j) : i = j := by
  have h1 := conclusion_key_article_index i
  rw [h, conclusion_key_article_index j] at h1
  exact (Option.some_inj.mp h1).symm

theorem question_key_inj {i j : Nat}
    (h : SocraticExtraction.question_key i
      = SocraticExtraction.question_key j) : i = j := by
  have h1 := question_key_article_index i
  rw [h, question_key_article_index j] at h1
  exact (Option.some_inj.mp h1).symm

theorem premise_key_inj {i j i2 j2 : Nat}
    (h : DirectExtraction.premise_key i j
      = DirectExtraction.premise_key i2 j2) : i = i2 ∧ j = j2 := by
  have h1 := premise_key_article_index i j
  have h2 := premise_key_item_index i j
  rw [h, premise_key_article_index i2 j2] at h1
  rw [h, premise_key_item_index i2 j2] at h2
  exact ⟨(Option.some_inj.mp h1).symm, (Option.some_inj.mp h2).symm⟩

theorem qa_key_inj {i j i2 j2 : Nat}
    (h : SocraticExtraction.qa_key i j = SocraticExtraction.qa_key i2 j2) :
    i = i2 ∧ j = j2 := by
  have h1 := qa_key_article_index i j
  have h2 := qa_key_item_index i j
  rw [h, qa_key_article_index i2 j2] at h1
  rw [h, qa_key_item_index i2 j2] at h2
  exact ⟨(Option.some_inj.mp h1).symm, (Option.some_inj.mp h2).symm⟩

theorem arg_key_inj {i j i2 j2 : Nat}
    (h : SocraticExtraction.arg_key i j = SocraticExtraction.arg_key i2 j2) :
    i = i2 ∧ j = j2 := by
  have h1 := arg_key_article_index i j
  have h2 := arg_key_item_index i j
  rw [h, arg_key_article_index i2 j2] at h1
  rw [h, arg_key_item_index i2 j2] at h2
  exact ⟨(Option.some_inj.mp h1).symm, (Option.some_inj.mp h2).symm⟩

theorem enum_fst_pairwise {α : Type} (l : List α) :
    List.Pairwise (fun p q => p.1 ≠ q.1) l.enum := by
  have h2 : List.Pairwise (· < ·) (l.enum.map Prod.fst) := by
    rw [List.enum_map_fst]
    exact List.pairwise_lt_range l.length
  rw [List.pairwise_map] at h2
  exact h2.imp Nat.ne_of_lt

theorem batch_phase1_keys_pairwise (selfD : DirectExtraction.Extractor)
    (articles : List Article) (tc : String) :
    ((DirectExtraction.batch_phase1_requests selfD articles tc).map
      (fun r => r.custom_id)).Pairwise (· ≠ ·) := by
  rw [DirectExtraction.batch_phase1_requests, List.map_filterMap]
  rw [List.pairwise_filterMap]
  refine (enum_fst_pairwise articles).imp ?_
  intro p q hne b hb b2 hb2
  simp only [Option.mem_def, Option.map_map, Option.map_eq_some'] at hb hb2
  obtain ⟨t1, _, rfl⟩ := hb
  obtain ⟨t2, _, rfl⟩ := hb2
  intro heq
  exact hne (conclusion_key_inj heq)

/-- The block of phase-2 requests one enumerated article contributes
(proof helper for the foldl-accumulated request list). -/
def DirectExtraction.phase2_block (selfD : DirectExtraction.Extractor)
    (p1 : List BatchRecord) (tc : String) (p : Nat × Article) :
    List BatchRequest :=
  match List.lookup tc p.2 with
  | none => []
  | some text =>
    ((DirectExtraction.build_conclusions_map p1
        (DirectExtraction.conclusion_key p.1)).getD []).enum.map fun q =>
      build_batch_request (DirectExtraction.premise_key p.1 q.1)
        (selfD.premise_extraction_prompt text q.2) selfD.model

theorem batch_phase2_requests_eq (selfD : DirectExtraction.Extractor)
    (articles : List Article) (p1 : List BatchRecord) (tc : String) :
    DirectExtraction.batch_phase2_requests selfD articles p1 tc
      = (articles.enum.map
          (DirectExtraction.phase2_block selfD p1 tc)).flatten := by
  rw [DirectExtraction.batch_phase2_requests]
  have key : ∀ (l : List (Nat × Article)) (init : List BatchRequest),
      l.foldl (fun requests p =>
        match List.lookup tc p.2 with
        | none => requests
        | some text =>
          let conclusions := (DirectExtraction.build_conclusions_map p1
            (DirectExtraction.conclusion_key p.1)).getD []
          requests ++ conclusions.enum.map fun q =>
            build_batch_request (DirectExtraction.premise_key p.1 q.1)
              (selfD.premise_extraction_prompt text q.2) selfD.model) init
      = init ++ (l.map (DirectExtraction.phase2_block selfD p1 tc)).flatten
      := by
    intro l
    induction l with
    | nil => intro init; simp
    | cons p rest ih =>
      intro init
      cases hl : List.lookup tc p.2 with
      | none =>
        simp only [List.foldl_cons, List.map_cons, List.flatten_cons, hl]
        rw [ih]
        simp [DirectExtraction.phase2_block, hl]
      | some text =>
        simp only [List.foldl_cons, List.map_cons, List.flatten_cons, hl]
        rw [ih]
        simp [DirectExtraction.phase2_block, hl, List.append_assoc]
  exact (key articles.enum []).trans (by simp)

theorem phase2_block_keys {selfD : DirectExtraction.Extractor}
    {p1 : List BatchRecord} {tc : String} {p : Nat × Article}
    {r : BatchRequest}
    (hr : r ∈ DirectExtraction.phase2_block selfD p1 tc p) :
    ∃ j, r.custom_id = DirectExtraction.premise_key p.1 j := by
  rw [DirectExtraction.phase2_block] at hr
  rcases hl : List.lookup tc p.2 with _ | text <;> rw [hl] at hr
  · cases hr
  · simp only [List.mem_map] at hr
    obtain ⟨q, _, rfl⟩ := hr
    exact ⟨q.1, rfl⟩

theorem batch_phase2_keys_pairwise (selfD : DirectExtraction.Extractor)
    (articles : List Article) (p1 : List BatchRecord) (tc : String) :
    ((DirectExtraction.batch_phase2_requests selfD articles p1 tc).map
      (fun r => r.custom_id)).Pairwise (· ≠ ·) := by
  rw [batch_phase2_requests_eq, List.map_flatten, List.pairwise_flatten]
  constructor
  · intro l hl
    simp only [List.mem_map] at hl
    obtain ⟨bl, ⟨p, hp, rfl⟩, rfl⟩ := hl
    rcases hlk : List.lookup tc p.2 with _ | text
    · simp only [DirectExtraction.phase2_block, hlk]
      simp
    · simp only [DirectExtraction.phase2_block, hlk]
      rw [List.map_map, List.pairwise_map]
      refine (enum_fst_pairwise _).imp ?_
      intro q q2 hne heq
      exact hne (premise_key_inj heq).2
  · rw [List.pairwise_map, List.pairwise_map]
    refine (enum_fst_pairwise articles).imp ?_
    intro p q hne x hx y hy
    simp only [List.mem_map] at hx hy
    obtain ⟨rx, hrx, rfl⟩ := hx
    obtain ⟨ry, hry, rfl⟩ := hy
    obtain ⟨jx, hjx⟩ := phase2_block_keys hrx
    obtain ⟨jy, hjy⟩ := phase2_block_keys hry
    rw [hjx, hjy]
    intro heq
    exact hne (premise_key_inj heq).1

/-- The output records a remote service that echoes every submitted
request's key back with some content would produce for a batch. -/
def echo (requests : List BatchRequest) (respond : String → String) :
    List BatchRecord :=
  requests.map fun r => mk_record r.custom_id (respond r.custom_id)

theorem extract_mk_record (k c : String) :
    extract_batch_result (mk_record k c) = pyStrip c := rfl

theorem echo_conclusions_lookup (selfD : DirectExtraction.Extractor)
    (tc : String) (respond : String → String) :
    ∀ (arts : List Article) (n i : Nat)
      (m : String → Option (List String)) (a : Article),
    arts[i]? = some a → (List.lookup tc a).isSome →
    pyStrip (respond (DirectExtraction.conclusion_key (n + i))) ≠ "" →
    (echo ((arts.enumFrom n).filterMap fun p =>
        (List.lookup tc p.2).map fun text =>
          build_batch_request (DirectExtraction.conclusion_key p.1)
            (selfD.conclusion_extraction_prompt text) selfD.model)
      respond).foldl (results_map_step DirectExtraction.parse_list_items) m
      (DirectExtraction.conclusion_key (n + i))
      = some (DirectExtraction.parse_list_items
          (pyStrip (respond (DirectExtraction.conclusion_key (n + i)))))
      := by
  intro arts
  induction arts with
  | nil =>
    intro n i m a ha
    simp at ha
  | cons hd rest ih =>
    intro n i m a ha ht hne
    rw [List.enumFrom_cons]
    cases i with
    | zero =>
      simp only [List.getElem?_cons_zero, Option.some_inj] at ha
      subst ha
      simp only [Nat.add_zero] at hne ⊢
      obtain ⟨text, htext⟩ := Option.isSome_iff_exists.mp ht
      rw [List.filterMap_cons]
      simp only [htext, Option.map_some']
      rw [echo, List.map_cons, List.foldl_cons]
      have hno : ∀ r ∈ (List.filterMap (fun p : Nat × Article =>
          (List.lookup tc p.2).map fun t2 =>
            build_batch_request (DirectExtraction.conclusion_key p.1)
              (selfD.conclusion_extraction_prompt t2) selfD.model)
          (rest.enumFrom (n + 1))).map
            (fun r => mk_record r.custom_id (respond r.custom_id)),
          extract_batch_result r = ""
            ∨ r.custom_id.getD "" ≠ DirectExtraction.conclusion_key n := by
        intro r hr
        right
        simp only [List.mem_map] at hr
        obtain ⟨req, hreq, rfl⟩ := hr
        obtain ⟨p, hp, hgp⟩ := List.mem_filterMap.mp hreq
        obtain ⟨t2, _, rfl⟩ := Option.map_eq_some'.mp hgp
        obtain ⟨i2, a2⟩ := p
        have hge := (List.mem_enumFrom hp).1
        intro heq
        have : i2 = n := conclusion_key_inj heq
        omega
      rw [foldl_results_map_no_match _ _ _ _ hno]
      simp only [results_map_step, extract_mk_record, build_batch_request]
      rw [if_neg hne]
      simp [mk_record]
    | succ i2 =>
      rw [List.getElem?_cons_succ] at ha
      have harith : n + (i2 + 1) = (n + 1) + i2 := by omega
      rw [harith]
      cases htext : List.lookup tc hd with
      | none =>
        rw [List.filterMap_cons]
        simp only [htext, Option.map_none']
        exact ih (n + 1) i2 m a ha ht (by rw [← harith]; exact hne)
      | some text =>
        rw [List.filterMap_cons]
        simp only [htext, Option.map_some']
        rw [echo, List.map_cons, List.foldl_cons]
        exact ih (n + 1) i2 _ a ha ht (by rw [← harith]; exact hne)

/-- C3: every correlation key generated for article `i` carries `i` as
its article-index segment (phase-1 keys `<tag>_i`, later-phase keys
`<tag>_i_j` reusing the same article index and adding the item index);
keys are pairwise distinct within a phase's request batch; and the
joiner, reading the shared index back, recovers the correct article's
data: when the phase-1 job echoes every submitted key, article `i`'s
combined result holds exactly the parse of the content keyed
`conclusion_key i`. -/
theorem correlation_key_scheme
    (selfD : DirectExtraction.Extractor) (articles : List Article)
    (p1 p2 : List BatchRecord) (tc : String) (ic : Option String)
    (respond : String → String) :
    (∀ i : Nat,
      key_article_index (DirectExtraction.conclusion_key i) = some i
      ∧ key_article_index (SocraticExtraction.question_key i) = some i)
    ∧ (∀ i j : Nat,
        key_article_index (DirectExtraction.premise_key i j) = some i
        ∧ key_item_index (DirectExtraction.premise_key i j) = some j
        ∧ key_article_index (SocraticExtraction.qa_key i j) = some i
        ∧ key_item_index (SocraticExtraction.qa_key i j) = some j
        ∧ key_article_index (SocraticExtraction.arg_key i j) = some i
        ∧ key_item_index (SocraticExtraction.arg_key i j) = some j)
    ∧ ((DirectExtraction.batch_phase1_requests selfD articles tc).map
        (fun r => r.custom_id)).Pairwise (· ≠ ·)
    ∧ ((DirectExtraction.batch_phase2_requests selfD articles p1 tc).map
        (fun r => r.custom_id)).Pairwise (· ≠ ·)
    ∧ (∀ (i : Nat) (a : Article), articles[i]? = some a →
        (List.lookup tc a).isSome →
        pyStrip (respond (DirectExtraction.conclusion_key i)) ≠ "" →
        ((DirectExtraction.combine_results articles
            (echo (DirectExtraction.batch_phase1_requests selfD articles
              tc) respond) p2 tc ic)[i]?).map
          (fun r : DirectExtraction.DirectExtractionResult =>
            r.conclusions)
          = some (some (DirectExtraction.parse_list_items
              (pyStrip (respond (DirectExtraction.conclusion_key i)))))) := by
  refine ⟨?_, ?_, ?_, ?_, ?_⟩
  · intro i
    exact ⟨conclusion_key_article_index i, question_key_article_index i⟩
  · intro i j
    exact ⟨premise_key_article_index i j, premise_key_item_index i j,
      qa_key_article_index i j, qa_key_item_index i j,
      arg_key_article_index i j, arg_key_item_index i j⟩
  · exact batch_phase1_keys_pairwise selfD articles tc
  · exact batch_phase2_keys_pairwise selfD articles p1 tc
  · intro i a ha htc hnz
    have hlook := echo_conclusions_lookup selfD tc respond articles 0 i
      (fun _ => none) a ha htc (by rw [Nat.zero_add]; exact hnz)
    rw [Nat.zero_add] at hlook
    have hmap : DirectExtraction.build_conclusions_map
        (echo (DirectExtraction.batch_phase1_requests selfD articles tc)
          respond) (DirectExtraction.conclusion_key i)
        = some (DirectExtraction.parse_list_items
            (pyStrip (respond (DirectExtraction.conclusion_key i)))) :=
      hlook
    simp [DirectExtraction.combine_results, List.getElem?_map,
      List.getElem?_enum, ha, hmap]

/-- Witness for C3's joiner-recovery part at a concrete one-article
batch whose echoed phase-1 content parses to one conclusion. -/
theorem correlation_key_scheme_witness :
    ((DirectExtraction.combine_results [[("text", "body")]]
        (echo (DirectExtraction.batch_phase1_requests testExtractorD
          [[("text", "body")]] "text") (fun _ => "1. foo")) [] "text"
        none)[0]?).map
      (fun r : DirectExtraction.DirectExtractionResult => r.conclusions)
      = some (some ["foo"]) := by
  have h := (correlation_key_scheme testExtractorD [[("text", "body")]] []
    [] "text" none (fun _ => "1. foo")).2.2.2.2 0 [("text", "body")] rfl
    (by decide) (by decide)
  have hp : DirectExtraction.parse_list_items (pyStrip "1. foo") = ["foo"]
      := by decide
  rw [hp] at h
  exact h

/-- The block of phase-3 requests one enumerated article contributes
(proof helper for the foldl-accumulated request list). -/
def SocraticExtraction.phase3_block (selfQ : SocraticExtraction.Extractor)
    (p1 p2 : List BatchRecord) (tc : String) (p : Nat × Article) :
    List BatchRequest :=
  match List.lookup tc p.2 with
  | none => []
  | some _ =>
    ((SocraticExtraction.build_questions_map p1
        (SocraticExtraction.question_key p.1)).getD []).enum.filterMap
      fun q =>
        match SocraticExtraction.build_answers_map p2
            (SocraticExtraction.qa_key p.1 q.1) with
        | none => none
        | some answer =>
          if answer = "" then none
          else some (build_batch_request (SocraticExtraction.arg_key p.1 q.1)
            (selfQ.argument_construction_prompt q.2 answer) selfQ.model)

theorem batch_phase3_requests_eq (selfQ : SocraticExtraction.Extractor)
    (articles : List Article) (p1 p2 : List BatchRecord) (tc : String) :
    SocraticExtraction.batch_phase3_requests selfQ articles p1 p2 tc
      = (articles.enum.map
          (SocraticExtraction.phase3_block selfQ p1 p2 tc)).flatten := by
  rw [SocraticExtraction.batch_phase3_requests]
  have key : ∀ (l : List (Nat × Article)) (init : List BatchRequest),
      l.foldl (fun requests p =>
        match List.lookup tc p.2 with
        | none => requests
        | some _ =>
          let questions := (SocraticExtraction.build_questions_map p1
            (SocraticExtraction.question_key p.1)).getD []
          requests ++ questions.enum.filterMap fun q =>
            match SocraticExtraction.build_answers_map p2
                (SocraticExtraction.qa_key p.1 q.1) with
            | none => none
            | some answer =>
              if answer = "" then none
              else some (build_batch_request
                (SocraticExtraction.arg_key p.1 q.1)
                (selfQ.argument_construction_prompt q.2 answer)
                selfQ.model)) init
      = init
        ++ (l.map (SocraticExtraction.phase3_block selfQ p1 p2 tc)).flatten
      := by
    intro l
    induction l with
    | nil => intro init; simp
    | cons p rest ih =>
      intro init
      cases hl : List.lookup tc p.2 with
      | none =>
        simp only [List.foldl_cons, List.map_cons, List.flatten_cons, hl]
        rw [ih]
        simp [SocraticExtraction.phase3_block, hl]
      | some text =>
        simp only [List.foldl_cons, List.map_cons, List.flatten_cons, hl]
        rw [ih]
        simp [SocraticExtraction.phase3_block, hl, List.append_assoc]
  exact (key articles.enum []).trans (by simp)

/-- Phase-1 record of the spec's Scenario B: one article whose question
extraction yields three questions. -/
def scenarioQ1 : BatchRecord :=
  mk_record (SocraticExtraction.question_key 0) "1. Q0\n2. Q1\n3. Q2"

/-- Phase-2 records of Scenario B: answers arrived only for questions 0
and 2 — the key `qa_0_1` is absent. -/
def scenarioQA : List BatchRecord :=
  [mk_record (SocraticExtraction.qa_key 0 0) "A0",
   mk_record (SocraticExtraction.qa_key 0 2) "A2"]

/-- Phase-3 records of Scenario B: one constructed argument per
submitted pair. -/
def scenarioArg : List BatchRecord :=
  [mk_record (SocraticExtraction.arg_key 0 0) "Claim: c0\nPremises:\n1. p0",
   mk_record (SocraticExtraction.arg_key 0 2) "Claim: c2\nPremises:\n1. p2"]

/-- C5: in the question-answer variant, a phase-3 request keyed
`arg_i_j` is built for (article `i`, question `j`) iff the phase-2
answer keyed `qa_i_j` is present and non-empty.  Concretely (Scenario
B): with three parsed questions and answers present only for questions 0
and 2, phase 3 receives exactly the requests keyed `arg_0_0` and
`arg_0_2`, and the combined result holds exactly 2 arguments while its
`questions` list still holds all 3. -/
theorem phase3_requests_iff
    (selfQ : SocraticExtraction.Extractor) (articles : List Article)
    (p1 p2 : List BatchRecord) (tc : String) (i j : Nat) (a : Article)
    (ha : articles[i]? = some a) (ht : (List.lookup tc a).isSome)
    (hj : j < ((SocraticExtraction.build_questions_map p1
      (SocraticExtraction.question_key i)).getD []).length) :
    ((∃ r ∈ SocraticExtraction.batch_phase3_requests selfQ articles p1 p2
        tc, r.custom_id = SocraticExtraction.arg_key i j)
      ↔ (∃ ans, SocraticExtraction.build_answers_map p2
          (SocraticExtraction.qa_key i j) = some ans ∧ ans ≠ ""))
    ∧ ((SocraticExtraction.batch_phase3_requests testExtractorQ
        [[("text", "body")]] [scenarioQ1] scenarioQA "text").map
          (fun r => r.custom_id)
        = [SocraticExtraction.arg_key 0 0, SocraticExtraction.arg_key 0 2])
    ∧ ((SocraticExtraction.combine_results [[("text", "body")]]
        [scenarioQ1] scenarioQA scenarioArg "text" none).map
          (fun r => ((r.questions.getD []).length,
            (r.arguments.getD []).length))
        = [(3, 2)]) := by
  refine ⟨?_, by decide, by decide⟩
  constructor
  · rintro ⟨r, hr, hkey⟩
    rw [batch_phase3_requests_eq, List.mem_flatten] at hr
    obtain ⟨l, hl, hrl⟩ := hr
    rw [List.mem_map] at hl
    obtain ⟨p, hp, rfl⟩ := hl
    rcases hlk : List.lookup tc p.2 with _ | text
    · simp only [SocraticExtraction.phase3_block, hlk] at hrl
      cases hrl
    · simp only [SocraticExtraction.phase3_block, hlk] at hrl
      rw [List.mem_filterMap] at hrl
      obtain ⟨q, hq, hqr⟩ := hrl
      rcases hans : SocraticExtraction.build_answers_map p2
          (SocraticExtraction.qa_key p.1 q.1) with _ | ans
      · simp only [hans] at hqr
        cases hqr
      · simp only [hans] at hqr
        by_cases hempty : ans = ""
        · rw [if_pos hempty] at hqr
          cases hqr
        · rw [if_neg hempty] at hqr
          injection hqr with hqr2
          subst hqr2
          simp only [build_batch_request] at hkey
          obtain ⟨hi, hj2⟩ := arg_key_inj hkey
          rw [hi, hj2] at hans
          exact ⟨ans, hans, hempty⟩
  · rintro ⟨ans, hans, hne⟩
    obtain ⟨text, htext⟩ := Option.isSome_iff_exists.mp ht
    refine ⟨build_batch_request (SocraticExtraction.arg_key i j)
      (selfQ.argument_construction_prompt
        (((SocraticExtraction.build_questions_map p1
          (SocraticExtraction.question_key i)).getD []).get ⟨j, hj⟩) ans)
      selfQ.model, ?_, rfl⟩
    rw [batch_phase3_requests_eq, List.mem_flatten]
    refine ⟨SocraticExtraction.phase3_block selfQ p1 p2 tc (i, a), ?_, ?_⟩
    · exact List.mem_map.mpr ⟨(i, a),
        List.mem_enum_iff_getElem?.mpr (by simpa using ha), rfl⟩
    · simp only [SocraticExtraction.phase3_block, htext]
      rw [List.mem_filterMap]
      refine ⟨(j, ((SocraticExtraction.build_questions_map p1
          (SocraticExtraction.question_key i)).getD []).get ⟨j, hj⟩),
        List.mem_enum_iff_getElem?.mpr ?_, ?_⟩
      · exact List.getElem?_eq_getElem hj
      · simp only [hans]
        rw [if_neg hne]

/-- Witness for C5 at Scenario B: question 0 has a present non-empty
answer, so its phase-3 request exists. -/
theorem phase3_requests_iff_witness :
    ∃ r ∈ SocraticExtraction.batch_phase3_requests testExtractorQ
        [[("text", "body")]] [scenarioQ1] scenarioQA "text",
      r.custom_id = SocraticExtraction.arg_key 0 0 :=
  ((phase3_requests_iff testExtractorQ [[("text", "body")]] [scenarioQ1]
    scenarioQA "text" 0 0 [("text", "body")] rfl (by decide)
    (by decide)).1).mpr ⟨"A0", by decide, by decide⟩
